import Mathlib

/-!
Shallow embedding of the download and caching core of the
slippy-tile-proxy-server repository (src/providers.py, src/geonorge_provider.py,
src/nslock.py, src/filelock.py), together with theorems settling the frozen
claims about it.  Machine integers of the source are modelled as Nat or Int
(Python integers are unbounded, so no wrap-around is needed); fallible code
returns Except or an explicit outcome type; the stateful lock registries are
modelled as explicit transition systems on state records.
-/

namespace SlippyProxy

/-- Block geometry helper of GeonorgeWMSDownloadProvider (geonorge_provider.py,
method named underscore-getXYWH, lines 87 to 100).  Returns the tuple
(x, y, x2, y2, width, height, tilesToRequest) where x and y have been snapped
to the block origin. -/
def getXYWH (z x y sizePx : Nat) : Nat × Nat × Nat × Nat × Nat × Nat × Nat :=
  let tilesToRequest := if 2 ^ z ≥ 8 then 8 else 2 ^ z
  let xB := x - x % tilesToRequest
  let yB := y - y % tilesToRequest
  let x2 := xB + tilesToRequest - 1
  let y2 := yB + tilesToRequest - 1
  let width := sizePx * ((x2 - xB) + 1)
  let height := sizePx * ((y2 - yB) + 1)
  (xB, yB, x2, y2, width, height, tilesToRequest)

/-- Image model for the compositor: only the pixel dimensions, which is all
that buildCompositeImage in providers.py inspects and changes.  The wand
composite call draws the overlay onto the base and keeps the base dimensions,
so the result of the embedded function is the dimensions of the (possibly
resized) base. -/
structure Img where
  width : Nat
  height : Nat
deriving DecidableEq

/-- buildCompositeImage from providers.py lines 52 to 72: both images are
forced to PNG (not visible on the dimension model), then, when the widths
differ, the image with the larger width is resized to the dimensions of the
other image, and the overlay is composited onto the base, the result keeping
the dimensions of the base. -/
def buildCompositeImage (base overlay : Img) : Img :=
  let bw := base.width
  let bh := base.height
  let ow := overlay.width
  let oh := overlay.height
  if bw ≠ ow then
    if bw > ow then
      -- base.resize(ow, oh); base.composite(overlay) keeps the base dimensions
      ⟨ow, oh⟩
    else
      -- overlay.resize(bw, bh); the base is unchanged
      ⟨bw, bh⟩
  else
    ⟨bw, bh⟩

/-- Per layer configuration fields consulted by the composite cache read
(providers.py BaseTileServerConfig). -/
structure TileServerConf where
  enableTileCache : Bool
  tileCacheTimeoutSec : Int
deriving DecidableEq

/-- Timeout computation of GeonorgeWMSDownloadProvider, method named
underscore-getTileCompositeFromCache (geonorge_provider.py lines 282 to 289):
starting from -1, every layer with enableTileCache true contributes its
tileCacheTimeoutSec: at index 0 it replaces the accumulator, at a later index
it is combined with min; layers with enableTileCache false are skipped. -/
def minTileCacheTimeoutSec (tileServers : List TileServerConf) : Int :=
  tileServers.enum.foldl
    (fun acc p =>
      if p.2.enableTileCache then
        if p.1 = 0 then p.2.tileCacheTimeoutSec
        else min acc p.2.tileCacheTimeoutSec
      else acc)
    (-1)

/-- Composite cache mtime validity test of the same method (geonorge_provider.py
lines 292 to 298): the cached entry is expired, hence invalid, exactly when
now - mtime > minTileCacheTimeoutSec. -/
def compositeCacheEntryValid (now mtime : Int) (tileServers : List TileServerConf) : Bool :=
  if now - mtime > minTileCacheTimeoutSec tileServers then false else true

/-- The timeout the claim describes, written from the words of the spec: the
minimum tileCacheTimeoutSec taken over all constituent layers of the tile set,
regardless of enableTileCache. -/
def claimMinTimeoutAllLayers (tileServers : List TileServerConf) : Option Int :=
  (tileServers.map (fun c => c.tileCacheTimeoutSec)).min?

/-- Timeouts of the layers whose cache is enabled, in order. -/
def enabledTimeouts (tileServers : List TileServerConf) : List Int :=
  (tileServers.filter (fun c => c.enableTileCache)).map (fun c => c.tileCacheTimeoutSec)

/-! FileLock.acquire (src/filelock.py lines 27 to 89). One iteration of its
while-true loop is embedded as a function of the outcomes of the system calls
made during that iteration. -/

/-- Linux errno value EAGAIN, imported by filelock.py through the errno module. -/
def EAGAIN : Int := 11

/-- Linux errno value EACCES, imported by filelock.py through the errno module. -/
def EACCES : Int := 13

/-- Outcome of os.open with O_CREAT, O_RDWR and O_EXCL. -/
inductive OpenResult
  | opened (fd : Nat)
  | fileExistsError
deriving DecidableEq

/-- Outcome of fcntl.lockf on a real file descriptor. -/
inductive LockfResult
  | ok
  | osError (errno : Int)
deriving DecidableEq

/-- Outcome of the fstat and stat inode comparison of lines 73 to 82. -/
inductive StatResult
  | inodeMatch
  | inodeMismatch
  | fileNotFound
deriving DecidableEq

/-- Python exceptions that can escape one iteration of FileLock.acquire. -/
inductive PyExc
  | typeError
  | osError (errno : Int)
deriving DecidableEq

/-- How one iteration of the FileLock.acquire loop ends. -/
inductive IterOutcome
  | returnTrue
  | returnFalse
  | retry
  | raised (e : PyExc)
deriving DecidableEq

/-- The retry test written verbatim at each of the three retry sites of
FileLock.acquire (lines 56 to 57, 66 to 67, 84 to 86): blocking and
(timeout == -1 or timeout <= time.time() - tStart).  elapsed stands for
time.time() - tStart at the moment of the test. -/
def retryCondition (blocking : Bool) (timeout elapsed : Int) : Bool :=
  blocking && (timeout == -1 || timeout ≤ elapsed)

/-- The part of one FileLock.acquire iteration that starts at the advisory
lock placement (filelock.py lines 60 to 89), as a function of the possibly
missing file descriptor.  When os.open raised FileExistsError the descriptor
attribute is still None, and fcntl.lockf on None raises TypeError, which the
except-OSError handler does not catch, so it propagates. -/
def lockfSection (blocking : Bool) (timeout elapsed : Int)
    (lockfRes : Nat → LockfResult) (statRes : StatResult) :
    Option Nat → IterOutcome
  | none => .raised .typeError
  | some fd =>
    match lockfRes fd with
    | .osError e =>
      if e ≠ EAGAIN ∨ e ≠ EACCES then
        if retryCondition blocking timeout elapsed then .retry
        else .returnFalse
      else .raised (.osError e)
    | .ok =>
      match statRes with
      | .inodeMatch => .returnTrue
      | .inodeMismatch =>
        if retryCondition blocking timeout elapsed then .retry
        else .returnFalse
      | .fileNotFound =>
        if retryCondition blocking timeout elapsed then .retry
        else .returnFalse

/-- One iteration of the while-true loop of FileLock.acquire (filelock.py
lines 36 to 89): open the lock file with create-exclusive; on
FileExistsError either retry (per retryCondition) or fall through to the
advisory lock placement with the descriptor still None. -/
def acquireIteration (blocking : Bool) (timeout elapsed : Int)
    (openRes : OpenResult) (lockfRes : Nat → LockfResult)
    (statRes : StatResult) : IterOutcome :=
  match openRes with
  | .fileExistsError =>
    if retryCondition blocking timeout elapsed then .retry
    else lockfSection blocking timeout elapsed lockfRes statRes none
  | .opened fd => lockfSection blocking timeout elapsed lockfRes statRes (some fd)

/-! The WMS download retry loop of GeonorgeWMSDownloadProvider, method named
underscore-downloadSingleTileLayer (src/geonorge_provider.py lines 132 to 173). -/

/-- One WMS response body, abstracted to what the retry loop inspects: either
the bytes parse as an image (payload identifies it), or wand raises
OptionError and the flag records whether the ISO-8859-1 decoded body contains
the substring Overforbruk. -/
inductive WMSResponse
  | image (img : Nat)
  | invalid (overforbruk : Bool)
deriving DecidableEq

/-- Result of the retry loop, together with the number of download attempts
made and the number of one second sleeps performed. -/
structure RetryRun where
  result : Except String Nat
  attempts : Nat
  sleeps : Nat

/-- maxRetries of the retry loop (geonorge_provider.py line 142). -/
def maxRetries : Nat := 10

/-- The while-true retry loop of the method: raise once numRetries has reached
maxRetries; otherwise download (responses gives the body of each 0-based
attempt), return the image if the bytes parse, sleep one second and loop when
the body contains Overforbruk, and loop without sleeping otherwise (the else
branch at lines 170 to 173 only logs, so control falls to the end of the loop
body and the loop runs again).  fuel only bounds the recursion: any fuel above
maxRetries - numRetries reproduces the source loop, which always terminates
within that many iterations. -/
def downloadLoop (responses : Nat → WMSResponse) :
    Nat → Nat → Nat → RetryRun
  | 0, numRetries, sleeps => ⟨.error "out of fuel", numRetries, sleeps⟩
  | fuel + 1, numRetries, sleeps =>
    if numRetries ≥ maxRetries then
      ⟨.error "reached max retries", numRetries, sleeps⟩
    else
      match responses numRetries with
      | .image img => ⟨.ok img, numRetries + 1, sleeps⟩
      | .invalid ov =>
        if ov then downloadLoop responses fuel (numRetries + 1) (sleeps + 1)
        else downloadLoop responses fuel (numRetries + 1) sleeps

/-- The method named underscore-downloadSingleTileLayer: run the retry loop
from zero retries. -/
def downloadSingleTileLayer (responses : Nat → WMSResponse) : RetryRun :=
  downloadLoop responses (maxRetries + 1) 0 0

/-! MultithreadedDownloadProvider.downloadTile (src/providers.py lines 306
to 341) over an abstract image model: an image is a Nat identifier, and the
composite built by the fold of buildCompositeImage is represented by the
ordered list of the layer images that went into it, which is exactly what the
claim about partial composition is about. -/

/-- The per layer field consulted by the cache read of the simple downloader. -/
structure SimpleLayerConf where
  enableTileCache : Bool
deriving DecidableEq

/-- Dict lookup for the integer keyed Python dicts of downloadTile, modelled
as association lists in insertion order. -/
def dictGet (d : List (Nat × Nat)) (k : Nat) : Option Nat :=
  (d.find? (fun p => p.1 = k)).map (fun p => p.2)

/-- Errors with which the embedded downloadTile can end: KeyError from the
list comprehension indexing allLayers, IndexError from layers[0] on an empty
list. -/
inductive TileError
  | keyError
  | indexError
deriving DecidableEq

/-- The method named underscore-loadLayersFromCache (providers.py lines 286
to 304): for every layer index, skip the layer when its cache is disabled or
the TileStore read misses, else record index and image.  cache gives the
TileStore read result per layer index. -/
def loadLayersFromCache (cache : Nat → Option Nat)
    (tileServers : List SimpleLayerConf) : List (Nat × Nat) :=
  tileServers.enum.filterMap (fun p =>
    if p.2.enableTileCache then
      match cache p.1 with
      | some img => some (p.1, img)
      | none => none
    else none)

/-- The method named underscore-downloadTileLayers (providers.py lines 234 to
273): download every url in a worker pool; as soon as one future raises, the
whole empty dict is returned and every already downloaded image is discarded;
when none raises, the dict holds every downloaded image. -/
def downloadTileLayers (fetch : Nat → Except Unit Nat) (urls : List Nat) :
    List (Nat × Nat) :=
  if urls.any (fun i => match fetch i with | .error _ => true | .ok _ => false) then []
  else urls.filterMap (fun i =>
    match fetch i with
    | .ok img => some (i, img)
    | .error _ => none)

/-- The method named underscore-makeCompositeFromLayers (providers.py lines
275 to 284) on the abstract image model: layers[0] on an empty list raises
IndexError; otherwise the fold keeps every given layer in order. -/
def makeCompositeFromLayers (layers : List Nat) : Except TileError (List Nat) :=
  match layers with
  | [] => .error .indexError
  | _ :: _ => .ok layers

/-- The list comprehension of providers.py line 339, reading allLayers[i] for
i in range(len(allLayers)): a missing index raises KeyError. -/
def gatherInIndexOrder (allLayers : List (Nat × Nat)) : Except TileError (List Nat) :=
  (List.range allLayers.length).mapM (fun i =>
    match dictGet allLayers i with
    | some img => Except.ok img
    | none => Except.error TileError.keyError)

/-- MultithreadedDownloadProvider.downloadTile: load what the cache has, build
urls for every layer index not picked from the cache, download them (an
exception empties the download dict), merge the two dicts, and compose the
images listed at indices 0 to len(allLayers)-1.  The cache writes of lines
324 to 335 do not affect the returned value and are omitted. -/
def simpleDownloadTile (tileServers : List SimpleLayerConf)
    (cache : Nat → Option Nat) (fetch : Nat → Except Unit Nat) :
    Except TileError (List Nat) :=
  let cachedLayers := loadLayersFromCache cache tileServers
  let urls := tileServers.enum.filterMap (fun p =>
    if (dictGet cachedLayers p.1).isSome then none else some p.1)
  let downloadedLayers := downloadTileLayers fetch urls
  let allLayers := cachedLayers ++ downloadedLayers
  match gatherInIndexOrder allLayers with
  | .error e => .error e
  | .ok imgs => makeCompositeFromLayers imgs

/-! Event trace of GeonorgeWMSDownloadProvider.downloadTile
(src/geonorge_provider.py lines 334 to 437). -/

/-- The externally visible events of one downloadTile request, in the order
the source performs them. -/
inductive DTEvent
  | fastCacheCheck
  | lockAcquire
  | critCacheCheck
  | admissionGate
  | blockFetch
  | composeLayers
  | cropAndCache
  | lockRelease
  | returnTile
deriving DecidableEq

/-- Straight-line event trace of one GeonorgeWMSDownloadProvider.downloadTile
request, as a function of whether the composite cache lookup before the lock
and the one inside the critical section hit.  Read off the source: try the
composite cache (line 350); on a miss enter the NamespaceLock block (line
378); re-check the composite cache (line 386); on a miss poll the admission
gate over the active largeLock keys (lines 390 to 411); then fetch the layers
(lines 427 to 431), compose them (line 433), crop and cache the block (line
435), and leave the with-block, releasing the lock. -/
def downloadTileTrace (fastHit critHit : Bool) : List DTEvent :=
  if fastHit then [.fastCacheCheck, .returnTile]
  else
    [.fastCacheCheck, .lockAcquire, .critCacheCheck] ++
      (if critHit then [.lockRelease, .returnTile]
       else [.admissionGate, .blockFetch, .composeLayers, .cropAndCache,
             .lockRelease, .returnTile])

/-! Transition system for the NamespaceLock registry (src/nslock.py).  Keys are
Nat.  Every registry access of the source runs under the module level
registry mutex, so each of the three registry accesses is one atomic step. -/

/-- State of one thread with respect to the registry: idle, constructed a
NamespaceLock for key k (counter already incremented, per key mutex not yet
held, which covers a thread blocked inside the dunder-enter method), or
holding the per key mutex of k. -/
inductive ThreadState
  | idle
  | waiting (k : Nat)
  | holding (k : Nat)
deriving DecidableEq

/-- The registry state: the per thread states, which keys are present in the
two module dicts (the source always inserts into and deletes from both dicts
together), the counter dict value (0 once the entry is deleted), and the
holder of each per key mutex. -/
structure RegistryState where
  threads : List ThreadState
  present : Nat → Bool
  counter : Nat → Nat
  mutexHolder : Nat → Option Nat

/-- Whether a thread state is between the NamespaceLock construction and the
end of the dunder-exit registry update for key k. -/
def activeOn (k : Nat) : ThreadState → Bool
  | .idle => false
  | .waiting k2 => k2 = k
  | .holding k2 => k2 = k

/-- Number of threads currently between acquire and release for key k. -/
def activeCount (ts : List ThreadState) (k : Nat) : Nat :=
  (ts.filter (activeOn k)).length

/-- getListOfActiveLocks (nslock.py lines 11 to 27): a snapshot copy of the
counter dict, keyed by the present keys. -/
def listOfActiveLocks (s : RegistryState) (k : Nat) : Option Nat :=
  if s.present k then some (s.counter k) else none

/-- Atomic steps of the registry.  construct is the NamespaceLock constructor
(nslock.py lines 31 to 38): find or create the entry and set or bump the
counter.  enter is the end of the dunder-enter method (line 41): the per key
mutex is taken when free.  exitStep is the dunder-exit method (lines 43 to
50): decrement the counter, pop both dict entries when it reached zero, and
release the per key mutex. -/
inductive NSStep : RegistryState → RegistryState → Prop
  | construct (s : RegistryState) (i k : Nat)
      (hi : s.threads[i]? = some .idle) :
      NSStep s
        { threads := s.threads.set i (.waiting k)
          present := Function.update s.present k true
          counter := Function.update s.counter k
            (if s.present k then s.counter k + 1 else 1)
          mutexHolder := s.mutexHolder }
  | enter (s : RegistryState) (i k : Nat)
      (hi : s.threads[i]? = some (.waiting k))
      (hm : s.mutexHolder k = none) :
      NSStep s
        { threads := s.threads.set i (.holding k)
          present := s.present
          counter := s.counter
          mutexHolder := Function.update s.mutexHolder k (some i) }
  | exitStep (s : RegistryState) (i k : Nat)
      (hi : s.threads[i]? = some (.holding k)) :
      NSStep s
        { threads := s.threads.set i .idle
          present := if s.counter k - 1 = 0
            then Function.update s.present k false else s.present
          counter := Function.update s.counter k (s.counter k - 1)
          mutexHolder := Function.update s.mutexHolder k none }

/-- The registry at module load: n idle threads, empty dicts. -/
def initRegistry (n : Nat) : RegistryState :=
  { threads := List.replicate n .idle
    present := fun _ => false
    counter := fun _ => 0
    mutexHolder := fun _ => none }

/-- States of the registry reachable by any interleaving of constructor,
enter and exit steps from the initial state with n threads. -/
inductive NSReachable (n : Nat) : RegistryState → Prop
  | init : NSReachable n (initRegistry n)
  | step {s t : RegistryState} : NSReachable n s → NSStep s t → NSReachable n t

/-! Transition system for the coalescing logic of
GeonorgeWMSDownloadProvider.downloadTile (src/geonorge_provider.py lines 334
to 437).  Each request i asks for a tile lying in block (blocks at index i);
the composite cache is keyed by block because the crop step of lines 309 to
332 writes every tile of the block at once.  The block fetch, compose, crop
and cache write happen while the namespace lock of the block is held, and
requests for other blocks only touch other cache keys, so they form one step. -/

/-- Control location of one request through downloadTile. -/
inductive ReqPc
  | start
  | waitingLock
  | critSection
  | doneFastHit
  | doneCritHit
  | doneFetched
deriving DecidableEq

/-- State of the set of concurrent requests: per request control location,
which blocks have their composite tiles cached, and the holder of each block
namespace lock. -/
structure CoalState where
  pcs : List ReqPc
  cache : Nat → Bool
  lockHolder : Nat → Option Nat

/-- Atomic steps of one request i for its block b.  fastHit and fastMiss are
the composite cache try before any locking (line 350); acquire is the entry
into the NamespaceLock block (line 378); critHit is the cache re-check inside
the critical section (line 386) followed by the release; fetchBlock is the
whole cache-missing tail of the critical section: the per layer WMS GETs, the
compose, and the crop that caches every composite tile of the block (lines
413 to 437), followed by the release. -/
inductive CoalStep (blocks : List Nat) : CoalState → CoalState → Prop
  | fastHit (s : CoalState) (i b : Nat)
      (hb : blocks[i]? = some b)
      (hp : s.pcs[i]? = some .start)
      (hc : s.cache b = true) :
      CoalStep blocks s { s with pcs := s.pcs.set i .doneFastHit }
  | fastMiss (s : CoalState) (i b : Nat)
      (hb : blocks[i]? = some b)
      (hp : s.pcs[i]? = some .start)
      (hc : s.cache b = false) :
      CoalStep blocks s { s with pcs := s.pcs.set i .waitingLock }
  | acquire (s : CoalState) (i b : Nat)
      (hb : blocks[i]? = some b)
      (hp : s.pcs[i]? = some .waitingLock)
      (hl : s.lockHolder b = none) :
      CoalStep blocks s
        { s with pcs := s.pcs.set i .critSection
                 lockHolder := Function.update s.lockHolder b (some i) }
  | critHit (s : CoalState) (i b : Nat)
      (hb : blocks[i]? = some b)
      (hp : s.pcs[i]? = some .critSection)
      (hc : s.cache b = true) :
      CoalStep blocks s
        { s with pcs := s.pcs.set i .doneCritHit
                 lockHolder := Function.update s.lockHolder b none }
  | fetchBlock (s : CoalState) (i b : Nat)
      (hb : blocks[i]? = some b)
      (hp : s.pcs[i]? = some .critSection)
      (hc : s.cache b = false) :
      CoalStep blocks s
        { pcs := s.pcs.set i .doneFetched
          cache := Function.update s.cache b true
          lockHolder := Function.update s.lockHolder b none }

/-- Initial state for a set of concurrent requests whose blocks are given:
all requests at the start, composite cache empty, no lock held. -/
def coalInit (blocks : List Nat) : CoalState :=
  { pcs := List.replicate blocks.length .start
    cache := fun _ => false
    lockHolder := fun _ => none }

/-- States reachable by any interleaving of the request steps. -/
inductive CoalReachable (blocks : List Nat) : CoalState → Prop
  | init : CoalReachable blocks (coalInit blocks)
  | step {s t : CoalState} :
      CoalReachable blocks s → CoalStep blocks s t → CoalReachable blocks t

/-- Concrete run for two concurrent requests to two tiles of the same block 0:
state after request 0 misses the fast path cache check. -/
def c1state1 : CoalState :=
  { coalInit [0, 0] with pcs := (coalInit [0, 0]).pcs.set 0 .waitingLock }

/-- State after request 0 acquires the block namespace lock. -/
def c1state2 : CoalState :=
  { c1state1 with pcs := c1state1.pcs.set 0 .critSection
                  lockHolder := Function.update c1state1.lockHolder 0 (some 0) }

/-- State after request 0 fetches the block, composes, crops, caches every
composite tile of the block, and releases the lock. -/
def c1state3 : CoalState :=
  { pcs := c1state2.pcs.set 0 .doneFetched
    cache := Function.update c1state2.cache 0 true
    lockHolder := Function.update c1state2.lockHolder 0 none }

/-- State after request 1, running its fast path cache check only now, hits
the composite cache before any locking and returns. -/
def c1state4 : CoalState :=
  { c1state3 with pcs := c1state3.pcs.set 1 .doneFastHit }

/-! Theorems settling the claims. -/

/-- C2: for every tile coordinate with z at most 30, x and y below 2 to the z,
and every positive sizePx, the block geometry computed by the method named
underscore-getXYWH satisfies: the block side N equals min 8 (2 to the z), the
origin components are x - x mod N and y - y mod N and bracket the requested
tile within N, and the requested WMS image width and height both equal
N times sizePx. -/
theorem c2_block_geometry (z x y sizePx : Nat)
    (hz : z ≤ 30) (hx : x < 2 ^ z) (hy : y < 2 ^ z) (hs : 0 < sizePx) :
    (getXYWH z x y sizePx).2.2.2.2.2.2 = min 8 (2 ^ z) ∧
    (getXYWH z x y sizePx).1 = x - x % min 8 (2 ^ z) ∧
    ((getXYWH z x y sizePx).1 ≤ x ∧ x < (getXYWH z x y sizePx).1 + min 8 (2 ^ z)) ∧
    (getXYWH z x y sizePx).2.1 = y - y % min 8 (2 ^ z) ∧
    ((getXYWH z x y sizePx).2.1 ≤ y ∧ y < (getXYWH z x y sizePx).2.1 + min 8 (2 ^ z)) ∧
    (getXYWH z x y sizePx).2.2.2.2.1 = min 8 (2 ^ z) * sizePx ∧
    (getXYWH z x y sizePx).2.2.2.2.2.1 = min 8 (2 ^ z) * sizePx := by
  have hpow : 0 < 2 ^ z := by positivity
  have hN : (if 2 ^ z ≥ 8 then 8 else 2 ^ z) = min 8 (2 ^ z) := by
    split <;> omega
  have hNpos : 0 < min 8 (2 ^ z) := by omega
  have hmx : x % min 8 (2 ^ z) < min 8 (2 ^ z) := Nat.mod_lt _ hNpos
  have hmx2 : x % min 8 (2 ^ z) ≤ x := Nat.mod_le _ _
  have hmy : y % min 8 (2 ^ z) < min 8 (2 ^ z) := Nat.mod_lt _ hNpos
  have hmy2 : y % min 8 (2 ^ z) ≤ y := Nat.mod_le _ _
  simp only [getXYWH, hN]
  have hwx : (x - x % min 8 (2 ^ z) + min 8 (2 ^ z) - 1 - (x - x % min 8 (2 ^ z))) + 1
      = min 8 (2 ^ z) := by omega
  have hwy : (y - y % min 8 (2 ^ z) + min 8 (2 ^ z) - 1 - (y - y % min 8 (2 ^ z))) + 1
      = min 8 (2 ^ z) := by omega
  refine ⟨trivial, trivial, ⟨by omega, by omega⟩, trivial, ⟨by omega, by omega⟩, ?_, ?_⟩
  · rw [hwx, Nat.mul_comm]
  · rw [hwy, Nat.mul_comm]

/-- C2 witness: the block geometry theorem applied at the boundary scenario
tile z 12, x 2192, y 1070 with sizePx 512 from the spec. -/
theorem c2_block_geometry_witness :
    (getXYWH 12 2192 1070 512).2.2.2.2.2.2 = min 8 (2 ^ 12) ∧
    (getXYWH 12 2192 1070 512).1 = 2192 - 2192 % min 8 (2 ^ 12) ∧
    ((getXYWH 12 2192 1070 512).1 ≤ 2192 ∧
      2192 < (getXYWH 12 2192 1070 512).1 + min 8 (2 ^ 12)) ∧
    (getXYWH 12 2192 1070 512).2.1 = 1070 - 1070 % min 8 (2 ^ 12) ∧
    ((getXYWH 12 2192 1070 512).2.1 ≤ 1070 ∧
      1070 < (getXYWH 12 2192 1070 512).2.1 + min 8 (2 ^ 12)) ∧
    (getXYWH 12 2192 1070 512).2.2.2.2.1 = min 8 (2 ^ 12) * 512 ∧
    (getXYWH 12 2192 1070 512).2.2.2.2.2.1 = min 8 (2 ^ 12) * 512 :=
  c2_block_geometry 12 2192 1070 512 (by decide) (by decide) (by decide) (by decide)

/-- C7 counterexample: base 512 by 512 and overlay 512 by 256 have different
dimensions, yet buildCompositeImage resizes nothing (it only compares widths)
and the result does not have the component-wise smaller dimensions. -/
theorem c7_counterexample :
    buildCompositeImage ⟨512, 512⟩ ⟨512, 256⟩ ≠ ⟨min 512 512, min 512 256⟩ ∧
    (Img.mk 512 512 ≠ Img.mk 512 256) := by decide

/-- C7 amended: buildCompositeImage reconciles sizes by width alone: when the
widths differ, the image with the larger width is resized to the full
dimensions of the other image, and the result keeps the dimensions of the
possibly resized base; when the widths are equal no resize happens even if
the heights differ.  Hence the resulting width is the smaller width, and the
resulting height is the overlay height exactly when the overlay is strictly
narrower than the base. -/
theorem c7_amended (b o : Img) :
    (buildCompositeImage b o).width = min b.width o.width ∧
    (buildCompositeImage b o).height =
      if o.width < b.width then o.height else b.height := by
  rcases b with ⟨bw, bh⟩
  rcases o with ⟨ow, oh⟩
  simp only [buildCompositeImage]
  rcases Nat.lt_trichotomy bw ow with h | h | h
  · rw [if_pos (by omega), if_neg (by omega), if_neg (by omega)]
    constructor
    · simp only []
      omega
    · simp only []
  · rw [if_neg (by omega), if_neg (by omega)]
    constructor
    · simp only []
      omega
    · simp only []
  · rw [if_pos (by omega), if_pos (by omega), if_pos (by omega)]
    constructor
    · simp only []
      omega
    · simp only []

/-- C4 counterexample: for the tile set with layers (cache enabled, timeout
100 seconds) then (cache disabled, timeout 5 seconds) and a cache entry 50
seconds old, the code treats the entry as valid, while the minimum timeout
over all constituent layers is 5, so the claimed validity condition
now - mtime at most T fails. -/
theorem c4_counterexample :
    compositeCacheEntryValid 50 0 [⟨true, 100⟩, ⟨false, 5⟩] = true ∧
    claimMinTimeoutAllLayers [⟨true, 100⟩, ⟨false, 5⟩] = some 5 ∧
    ¬ ((50 : Int) - 0 ≤ 5) := by decide

/-- Helper: the fold of the timeout computation over indices that are all
nonzero only ever takes the index-nonzero branch, so it equals the plain min
fold over the timeouts of the cache-enabled layers. -/
theorem enumFrom_fold_min (l : List TileServerConf) (n : Nat) (hn : 0 < n) (a : Int) :
    (l.enumFrom n).foldl
      (fun acc p =>
        if p.2.enableTileCache then
          if p.1 = 0 then p.2.tileCacheTimeoutSec
          else min acc p.2.tileCacheTimeoutSec
        else acc) a
    = (enabledTimeouts l).foldl min a := by
  induction l generalizing n a with
  | nil => rfl
  | cons c t ih =>
    show ((n, c) :: t.enumFrom (n + 1)).foldl _ a = (enabledTimeouts (c :: t)).foldl min a
    have he : enabledTimeouts (c :: t) =
        if c.enableTileCache then c.tileCacheTimeoutSec :: enabledTimeouts t
        else enabledTimeouts t := by
      simp only [enabledTimeouts, List.filter_cons]
      split <;> simp
    rw [List.foldl_cons, he]
    by_cases hc : c.enableTileCache
    · rw [if_pos hc]
      simp only [hc, if_true, if_neg (by omega : ¬ n = 0)]
      rw [List.foldl_cons]
      exact ih (n + 1) (by omega) _
    · rw [if_neg hc]
      simp only [hc, if_false]
      exact ih (n + 1) (by omega) _

/-- Helper: being below a left min fold is being below the seed and every
element. -/
theorem le_foldl_min (x a : Int) (l : List Int) :
    x ≤ l.foldl min a ↔ x ≤ a ∧ ∀ t ∈ l, x ≤ t := by
  induction l generalizing a with
  | nil => simp
  | cons c t ih =>
    rw [List.foldl_cons, ih]
    constructor
    · rintro ⟨h1, h2⟩
      rw [Int.le_min] at h1
      exact ⟨h1.1, fun u hu => by
        rcases List.mem_cons.mp hu with he | ht
        · exact he ▸ h1.2
        · exact h2 u ht⟩
    · rintro ⟨h1, h2⟩
      exact ⟨Int.le_min.mpr ⟨h1, h2 c (List.mem_cons_self c t)⟩,
        fun u hu => h2 u (List.mem_cons_of_mem c hu)⟩

/-- Helper: when the first layer has its cache enabled, the timeout the code
computes is the min fold, seeded with the first layer timeout, over the
timeouts of the remaining cache-enabled layers. -/
theorem minTileCacheTimeoutSec_cons_enabled (c0 : TileServerConf)
    (rest : List TileServerConf) (h0 : c0.enableTileCache = true) :
    minTileCacheTimeoutSec (c0 :: rest) =
      (enabledTimeouts rest).foldl min c0.tileCacheTimeoutSec := by
  show ((0, c0) :: rest.enumFrom 1).foldl _ (-1) = _
  rw [List.foldl_cons]
  simp only [h0, if_true, if_pos rfl]
  exact enumFrom_fold_min rest 1 (by omega) _

/-- C4 amended: whenever the first layer of the tile set has enableTileCache
true, the composite cache read treats the entry as valid iff now - mtime is
at most every tileCacheTimeoutSec of the layers with enableTileCache true,
that is, iff now - mtime is at most the minimum timeout over the cache-enabled
layers only; layers with enableTileCache false are not consulted (and when the
first layer has its cache disabled the fold is seeded at -1 instead, making
every entry expired). -/
theorem c4_amended (now mtime : Int) (c0 : TileServerConf)
    (rest : List TileServerConf) (h0 : c0.enableTileCache = true) :
    compositeCacheEntryValid now mtime (c0 :: rest) = true ↔
      ∀ t ∈ enabledTimeouts (c0 :: rest), now - mtime ≤ t := by
  have he : enabledTimeouts (c0 :: rest) =
      c0.tileCacheTimeoutSec :: enabledTimeouts rest := by
    simp only [enabledTimeouts, List.filter_cons, h0, if_true]
    simp
  unfold compositeCacheEntryValid
  rw [minTileCacheTimeoutSec_cons_enabled c0 rest h0, he]
  constructor
  · intro hv
    have : now - mtime ≤ (enabledTimeouts rest).foldl min c0.tileCacheTimeoutSec := by
      by_contra hcon
      rw [if_pos (by omega)] at hv
      exact Bool.false_ne_true hv
    rw [le_foldl_min] at this
    intro t ht
    rcases List.mem_cons.mp ht with hh | hh
    · exact hh ▸ this.1
    · exact this.2 t hh
  · intro hall
    have : now - mtime ≤ (enabledTimeouts rest).foldl min c0.tileCacheTimeoutSec := by
      rw [le_foldl_min]
      exact ⟨hall _ (List.mem_cons_self _ _),
        fun t ht => hall t (List.mem_cons_of_mem _ ht)⟩
    rw [if_neg (by omega)]

/-- C4 amended witness: the amended validity characterisation applied to the
counterexample tile set, where the 50 second old entry is valid. -/
theorem c4_amended_witness :
    compositeCacheEntryValid 50 0 [⟨true, 100⟩, ⟨false, 5⟩] = true :=
  (c4_amended 50 0 ⟨true, 100⟩ [⟨false, 5⟩] rfl).mpr (by decide)

/-- C8 counterexample: with blocking true, a finite timeout of 5 seconds not
yet elapsed, and fcntl.lockf failing with errno EAGAIN, the claim says the
acquire call retries, but the iteration closes the descriptor and returns
false: the retry test of the source fires only when the timeout has already
elapsed. -/
theorem c8_counterexample :
    acquireIteration true 5 0 (.opened 3) (fun _ => .osError EAGAIN) .inodeMatch
      = .returnFalse ∧
    IterOutcome.returnFalse ≠ IterOutcome.retry := by decide

/-- C8 amended: an OSError raised by the advisory lock placement is never
re-raised, whatever its errno, because the errno test of line 65 is a
tautology; it is always treated as contention, and the iteration retries
exactly when blocking holds and the timeout is -1 or has already elapsed
(so with a finite timeout not yet elapsed the call returns false at once
instead of retrying). -/
theorem c8_amended (blocking : Bool) (timeout elapsed : Int) (fd : Nat)
    (e : Int) (statRes : StatResult) :
    acquireIteration blocking timeout elapsed (.opened fd)
        (fun _ => .osError e) statRes =
      if blocking = true ∧ (timeout = -1 ∨ timeout ≤ elapsed)
      then .retry else .returnFalse := by
  have htaut : e ≠ EAGAIN ∨ e ≠ EACCES := by
    by_cases hgn : e = EAGAIN
    · right
      rw [hgn]
      unfold EAGAIN EACCES
      omega
    · exact Or.inl hgn
  have hrc : retryCondition blocking timeout elapsed = true ↔
      blocking = true ∧ (timeout = -1 ∨ timeout ≤ elapsed) := by
    unfold retryCondition
    rcases blocking with _ | _ <;>
      simp [Int.le_def, beq_iff_eq] <;> omega
  show (if e ≠ EAGAIN ∨ e ≠ EACCES then
          if retryCondition blocking timeout elapsed then IterOutcome.retry
          else IterOutcome.returnFalse
        else IterOutcome.raised (.osError e)) = _
  rw [if_pos htaut]
  by_cases hb : retryCondition blocking timeout elapsed = true
  · rw [if_pos hb, if_pos (hrc.mp hb)]
  · rw [if_neg hb, if_neg (fun hx => hb (hrc.mpr hx))]

/-- C10: a FileLock.acquire call with blocking false while the lock file
already exists raises instead of returning false: os.open raises
FileExistsError, the non-blocking path does not retry, control falls through
to fcntl.lockf with the descriptor attribute still None, and the resulting
TypeError is not an OSError, so it propagates to the caller. -/
theorem c10_nonblocking_existing_lockfile_raises (timeout elapsed : Int)
    (lockfRes : Nat → LockfResult) (statRes : StatResult) :
    acquireIteration false timeout elapsed .fileExistsError lockfRes statRes =
      .raised .typeError := rfl

/-- C6: evaluation of the WMS retry loop.  When every response fails to parse
and lacks Overforbruk, the code still retries: it makes all 10 capped attempts
with no sleep and then raises, and when the first response fails to parse
without Overforbruk but the second parses, the code performs the second
attempt and returns its image, contradicting the claim that a
non-Overforbruk decode failure is not retried.  With Overforbruk bodies it
sleeps once per failed attempt and the cap of 10 attempts also ends in a
raise. -/
theorem c6_retry_loop_evaluation :
    (downloadSingleTileLayer (fun _ => .invalid false)).result
        = .error "reached max retries" ∧
    (downloadSingleTileLayer (fun _ => .invalid false)).attempts = 10 ∧
    (downloadSingleTileLayer (fun _ => .invalid false)).sleeps = 0 ∧
    (downloadSingleTileLayer (fun _ => .invalid true)).attempts = 10 ∧
    (downloadSingleTileLayer (fun _ => .invalid true)).sleeps = 10 ∧
    (downloadSingleTileLayer (fun n => if n = 0 then .invalid false else .image 7)).result
        = .ok 7 ∧
    (downloadSingleTileLayer (fun n => if n = 0 then .invalid false else .image 7)).attempts
        = 2 := by
  exact ⟨rfl, rfl, rfl, rfl, rfl, rfl, rfl⟩

/-- C3: evaluation of the simple downloader at the failing input.  With two
configured layers, layer 0 satisfied from the cache and the fetch of layer 1
raising, downloadTile returns the composite built from layer 0 alone, a
strict subset of the configured layers, instead of failing.  With no cached
layer the same failure does fail the tile (IndexError on layers[0] of the
empty list), and with only the non-prefix layer 1 cached it fails with
KeyError, showing the partial return is an inconsistency of the prefix
case. -/
theorem c3_partial_composite_returned :
    simpleDownloadTile [⟨true⟩, ⟨true⟩]
        (fun i => if i = 0 then some 100 else none) (fun _ => .error ())
      = .ok [100] ∧
    simpleDownloadTile [⟨true⟩, ⟨true⟩]
        (fun _ => none) (fun _ => .error ())
      = .error .indexError ∧
    simpleDownloadTile [⟨true⟩, ⟨true⟩]
        (fun i => if i = 1 then some 200 else none) (fun _ => .error ())
      = .error .keyError := by
  exact ⟨rfl, rfl, rfl⟩

/-- C9 counterexample: in the execution of downloadTile that reaches the block
fetch, the admission gate does not complete before the namespace lock is
acquired: the lock acquisition strictly precedes the gate in the trace. -/
theorem c9_counterexample :
    DTEvent.blockFetch ∈ downloadTileTrace false false ∧
    ¬ ((downloadTileTrace false false).indexOf DTEvent.admissionGate <
        (downloadTileTrace false false).indexOf DTEvent.lockAcquire) := by decide

/-- C9 amended: in every execution that reaches the block fetch, the namespace
lock is acquired first, the composite cache is re-checked immediately inside
the critical section, and only then does the admission gate poll the largeLock
snapshot, completing before the block fetch begins. -/
theorem c9_amended :
    DTEvent.blockFetch ∈ downloadTileTrace false false ∧
    (downloadTileTrace false false).indexOf DTEvent.lockAcquire <
      (downloadTileTrace false false).indexOf DTEvent.critCacheCheck ∧
    (downloadTileTrace false false).indexOf DTEvent.critCacheCheck <
      (downloadTileTrace false false).indexOf DTEvent.admissionGate ∧
    (downloadTileTrace false false).indexOf DTEvent.admissionGate <
      (downloadTileTrace false false).indexOf DTEvent.blockFetch := by decide

/-- Helper: replacing the element at a valid index changes the active count
for key k by the activity difference of the old and new element. -/
theorem activeCount_set (ts : List ThreadState) (i : Nat) (a b : ThreadState)
    (k : Nat) (h : ts[i]? = some a) :
    activeCount (ts.set i b) k + (if activeOn k a then 1 else 0) =
      activeCount ts k + (if activeOn k b then 1 else 0) := by
  induction ts generalizing i with
  | nil => simp at h
  | cons c t ih =>
    cases i with
    | zero =>
      simp only [List.getElem?_cons_zero, Option.some_inj] at h
      subst h
      simp only [List.set]
      unfold activeCount
      simp only [List.filter_cons]
      by_cases hb : activeOn k b <;> by_cases hc : activeOn k c <;>
        simp [hb, hc]
    | succ j =>
      simp only [List.getElem?_cons_succ] at h
      have hrec := ih j h
      unfold activeCount at hrec ⊢
      simp only [List.set, List.filter_cons]
      by_cases hc : activeOn k c <;> simp [hc] <;> omega

/-- Helper: the initial registry has no active thread on any key. -/
theorem activeCount_replicate_idle (n k : Nat) :
    activeCount (List.replicate n ThreadState.idle) k = 0 := by
  induction n with
  | zero => rfl
  | succ m ih =>
    simpa [activeCount, List.replicate_succ, List.filter_cons, activeOn] using ih

/-- Helper: preservation of the registry invariant at key k by one step. -/
theorem nsstep_preserves (s t : RegistryState) (hstep : NSStep s t) (k : Nat)
    (ihp : s.present k = true ↔ 1 ≤ s.counter k)
    (ihc : s.counter k = activeCount s.threads k) :
    (t.present k = true ↔ 1 ≤ t.counter k) ∧
    t.counter k = activeCount t.threads k := by
  cases hstep with
  | construct i k2 hi =>
    have hset := activeCount_set s.threads i .idle (.waiting k2) k hi
    simp only [activeOn] at hset
    dsimp only
    by_cases hk : k2 = k
    · subst hk
      simp at hset
      rw [Function.update_same, Function.update_same]
      by_cases hp : s.present k2 = true <;> simp [hp] at * <;> omega
    · have hx : ¬ k = k2 := fun hc => hk hc.symm
      rw [Function.update_noteq hx, Function.update_noteq hx]
      simp [hk] at hset
      exact ⟨ihp, by omega⟩
  | enter i k2 hi hm =>
    have hset := activeCount_set s.threads i (.waiting k2) (.holding k2) k hi
    simp only [activeOn] at hset
    dsimp only
    exact ⟨ihp, by omega⟩
  | exitStep i k2 hi =>
    have hset := activeCount_set s.threads i (.holding k2) .idle k hi
    simp only [activeOn] at hset
    dsimp only
    by_cases hk : k2 = k
    · subst hk
      simp at hset
      have hact : 1 ≤ activeCount s.threads k2 := by omega
      have hpres : s.present k2 = true := ihp.mpr (by omega)
      rw [Function.update_same]
      by_cases hz : s.counter k2 - 1 = 0
      · rw [if_pos hz]
        rw [Function.update_same]
        constructor
        · simp [hz]
        · omega
      · rw [if_neg hz]
        constructor
        · rw [hpres]
          simp only [true_iff]
          omega
        · omega
    · have hx : ¬ k = k2 := fun hc => hk hc.symm
      simp [hk] at hset
      rw [Function.update_noteq hx]
      have hpk : (if s.counter k2 - 1 = 0
          then Function.update s.present k2 false else s.present) k = s.present k := by
        by_cases hz : s.counter k2 - 1 = 0
        · rw [if_pos hz, Function.update_noteq hx]
        · rw [if_neg hz]
      rw [hpk]
      exact ⟨ihp, by omega⟩

/-- Master invariant of the NamespaceLock registry: in every reachable state,
for every key, the entry is present in the dicts iff the counter is at least
one, and the counter equals the number of threads currently between the
NamespaceLock construction and the end of the exit method for that key. -/
theorem nsreachable_inv (n : Nat) (s : RegistryState) (h : NSReachable n s)
    (k : Nat) :
    (s.present k = true ↔ 1 ≤ s.counter k) ∧
    s.counter k = activeCount s.threads k := by
  induction h with
  | init =>
    refine ⟨by simp [initRegistry], ?_⟩
    simp [initRegistry, activeCount_replicate_idle]
  | step hs hstep ih =>
    exact nsstep_preserves _ _ hstep k ih.1 ih.2

/-- C5: in every reachable state of the NamespaceLock registry, a key has an
entry in the mutex map iff its counter is at least one (so an entry is
removed exactly when its count reaches zero and no entry outlives its last
holder), and for every key reported by getListOfActiveLocks, the reported
refcount equals the number of threads currently between acquire and release
for that key. -/
theorem c5_registry_invariants (n : Nat) (s : RegistryState)
    (h : NSReachable n s) :
    (∀ k, s.present k = true ↔ 1 ≤ s.counter k) ∧
    (∀ k c, listOfActiveLocks s k = some c → c = activeCount s.threads k) := by
  refine ⟨fun k => (nsreachable_inv n s h k).1, fun k c hk => ?_⟩
  unfold listOfActiveLocks at hk
  by_cases hp : s.present k
  · rw [if_pos hp, Option.some_inj] at hk
    rw [← hk]
    exact (nsreachable_inv n s h k).2
  · rw [if_neg hp] at hk
    cases hk

/-- C5 witness: the registry invariant applied to the initial state with two
threads at key 0. -/
theorem c5_registry_invariants_witness :
    (initRegistry 2).present 0 = true ↔ 1 ≤ (initRegistry 2).counter 0 :=
  (c5_registry_invariants 2 (initRegistry 2) NSReachable.init).1 0

/-- Helper: reading any index of a list after setting a valid index. -/
theorem getElem?_set_cases (l : List ReqPc) (m i : Nat) (a b : ReqPc)
    (h : l[m]? = some a) :
    (l.set m b)[i]? = if m = i then some b else l[i]? := by
  by_cases hmi : m = i
  · subst hmi
    rw [if_pos rfl, List.getElem?_set_self (List.getElem?_eq_some.mp h).1]
  · rw [if_neg hmi, List.getElem?_set_ne hmi]

/-- Helper: preservation of the coalescing invariant by one request step: a
finished fetcher's block is cached, a finished cache-hit request's block is
cached, and two finished fetchers of one block are the same request. -/
theorem coalstep_preserves (blocks : List Nat) (s t : CoalState)
    (hstep : CoalStep blocks s t)
    (h1 : ∀ (i b : Nat), blocks[i]? = some b →
      s.pcs[i]? = some ReqPc.doneFetched → s.cache b = true)
    (h2 : ∀ (i b : Nat), blocks[i]? = some b →
      s.pcs[i]? = some ReqPc.doneFastHit ∨ s.pcs[i]? = some ReqPc.doneCritHit →
      s.cache b = true)
    (h3 : ∀ (i j b : Nat), blocks[i]? = some b → blocks[j]? = some b →
      s.pcs[i]? = some ReqPc.doneFetched → s.pcs[j]? = some ReqPc.doneFetched → i = j) :
    (∀ (i b : Nat), blocks[i]? = some b →
      t.pcs[i]? = some ReqPc.doneFetched → t.cache b = true) ∧
    (∀ (i b : Nat), blocks[i]? = some b →
      t.pcs[i]? = some ReqPc.doneFastHit ∨ t.pcs[i]? = some ReqPc.doneCritHit →
      t.cache b = true) ∧
    (∀ (i j b : Nat), blocks[i]? = some b → blocks[j]? = some b →
      t.pcs[i]? = some ReqPc.doneFetched → t.pcs[j]? = some ReqPc.doneFetched → i = j) := by
  cases hstep with
  | fastHit m b0 hb0 hp0 hc0 =>
    refine ⟨fun i b hb hp => ?_, fun i b hb hp => ?_, fun i j b hbi hbj hpi hpj => ?_⟩
    · rw [getElem?_set_cases s.pcs m i _ _ hp0] at hp
      by_cases hmi : m = i
      · rw [if_pos hmi] at hp
        cases hp
      · rw [if_neg hmi] at hp
        exact h1 i b hb hp
    · rw [getElem?_set_cases s.pcs m i _ _ hp0] at hp
      by_cases hmi : m = i
      · subst hmi
        rw [hb0] at hb
        cases hb
        exact hc0
      · rw [if_neg hmi] at hp
        exact h2 i b hb hp
    · rw [getElem?_set_cases s.pcs m i _ _ hp0] at hpi
      rw [getElem?_set_cases s.pcs m j _ _ hp0] at hpj
      by_cases hmi : m = i
      · rw [if_pos hmi] at hpi
        cases hpi
      · by_cases hmj : m = j
        · rw [if_pos hmj] at hpj
          cases hpj
        · rw [if_neg hmi] at hpi
          rw [if_neg hmj] at hpj
          exact h3 i j b hbi hbj hpi hpj
  | fastMiss m b0 hb0 hp0 hc0 =>
    refine ⟨fun i b hb hp => ?_, fun i b hb hp => ?_, fun i j b hbi hbj hpi hpj => ?_⟩
    · rw [getElem?_set_cases s.pcs m i _ _ hp0] at hp
      by_cases hmi : m = i
      · rw [if_pos hmi] at hp
        cases hp
      · rw [if_neg hmi] at hp
        exact h1 i b hb hp
    · rw [getElem?_set_cases s.pcs m i _ _ hp0] at hp
      by_cases hmi : m = i
      · rw [if_pos hmi] at hp
        rcases hp with hp | hp <;> cases hp
      · rw [if_neg hmi] at hp
        exact h2 i b hb hp
    · rw [getElem?_set_cases s.pcs m i _ _ hp0] at hpi
      rw [getElem?_set_cases s.pcs m j _ _ hp0] at hpj
      by_cases hmi : m = i
      · rw [if_pos hmi] at hpi
        cases hpi
      · by_cases hmj : m = j
        · rw [if_pos hmj] at hpj
          cases hpj
        · rw [if_neg hmi] at hpi
          rw [if_neg hmj] at hpj
          exact h3 i j b hbi hbj hpi hpj
  | acquire m b0 hb0 hp0 hl0 =>
    refine ⟨fun i b hb hp => ?_, fun i b hb hp => ?_, fun i j b hbi hbj hpi hpj => ?_⟩
    · rw [getElem?_set_cases s.pcs m i _ _ hp0] at hp
      by_cases hmi : m = i
      · rw [if_pos hmi] at hp
        cases hp
      · rw [if_neg hmi] at hp
        exact h1 i b hb hp
    · rw [getElem?_set_cases s.pcs m i _ _ hp0] at hp
      by_cases hmi : m = i
      · rw [if_pos hmi] at hp
        rcases hp with hp | hp <;> cases hp
      · rw [if_neg hmi] at hp
        exact h2 i b hb hp
    · rw [getElem?_set_cases s.pcs m i _ _ hp0] at hpi
      rw [getElem?_set_cases s.pcs m j _ _ hp0] at hpj
      by_cases hmi : m = i
      · rw [if_pos hmi] at hpi
        cases hpi
      · by_cases hmj : m = j
        · rw [if_pos hmj] at hpj
          cases hpj
        · rw [if_neg hmi] at hpi
          rw [if_neg hmj] at hpj
          exact h3 i j b hbi hbj hpi hpj
  | critHit m b0 hb0 hp0 hc0 =>
    refine ⟨fun i b hb hp => ?_, fun i b hb hp => ?_, fun i j b hbi hbj hpi hpj => ?_⟩
    · rw [getElem?_set_cases s.pcs m i _ _ hp0] at hp
      by_cases hmi : m = i
      · rw [if_pos hmi] at hp
        cases hp
      · rw [if_neg hmi] at hp
        exact h1 i b hb hp
    · rw [getElem?_set_cases s.pcs m i _ _ hp0] at hp
      by_cases hmi : m = i
      · subst hmi
        rw [hb0] at hb
        cases hb
        exact hc0
      · rw [if_neg hmi] at hp
        exact h2 i b hb hp
    · rw [getElem?_set_cases s.pcs m i _ _ hp0] at hpi
      rw [getElem?_set_cases s.pcs m j _ _ hp0] at hpj
      by_cases hmi : m = i
      · rw [if_pos hmi] at hpi
        cases hpi
      · by_cases hmj : m = j
        · rw [if_pos hmj] at hpj
          cases hpj
        · rw [if_neg hmi] at hpi
          rw [if_neg hmj] at hpj
          exact h3 i j b hbi hbj hpi hpj
  | fetchBlock m b0 hb0 hp0 hc0 =>
    have hmono : ∀ b, s.cache b = true → Function.update s.cache b0 true b = true := by
      intro b hb
      by_cases hbb : b = b0
      · subst hbb
        rw [Function.update_same]
      · rw [Function.update_noteq hbb]
        exact hb
    refine ⟨fun i b hb hp => ?_, fun i b hb hp => ?_, fun i j b hbi hbj hpi hpj => ?_⟩
    · rw [getElem?_set_cases s.pcs m i _ _ hp0] at hp
      by_cases hmi : m = i
      · subst hmi
        rw [hb0] at hb
        cases hb
        exact Function.update_same b0 true s.cache
      · rw [if_neg hmi] at hp
        exact hmono b (h1 i b hb hp)
    · rw [getElem?_set_cases s.pcs m i _ _ hp0] at hp
      by_cases hmi : m = i
      · rw [if_pos hmi] at hp
        rcases hp with hp | hp <;> cases hp
      · rw [if_neg hmi] at hp
        exact hmono b (h2 i b hb hp)
    · rw [getElem?_set_cases s.pcs m i _ _ hp0] at hpi
      rw [getElem?_set_cases s.pcs m j _ _ hp0] at hpj
      by_cases hmi : m = i
      · by_cases hmj : m = j
        · omega
        · rw [if_neg hmj] at hpj
          subst hmi
          rw [hb0] at hbi
          cases hbi
          have := h1 j b0 hbj hpj
          rw [this] at hc0
          cases hc0
      · by_cases hmj : m = j
        · rw [if_neg hmi] at hpi
          subst hmj
          rw [hb0] at hbj
          cases hbj
          have := h1 i b0 hbi hpi
          rw [this] at hc0
          cases hc0
        · rw [if_neg hmi] at hpi
          rw [if_neg hmj] at hpj
          exact h3 i j b hbi hbj hpi hpj

/-- Helper: in the initial coalescing state every request is at start. -/
theorem coalInit_pcs_start (blocks : List Nat) (i : Nat) (pc : ReqPc)
    (h : (coalInit blocks).pcs[i]? = some pc) : pc = ReqPc.start := by
  have hrep : (coalInit blocks).pcs = List.replicate blocks.length .start := rfl
  rw [hrep] at h
  rcases List.getElem?_eq_some.mp h with ⟨hlt, hget⟩
  rw [List.getElem_replicate] at hget
  exact hget.symm

/-- C1 amended: in every reachable state of the coalescing system, at most one
request per block ever performs the block fetch plus compose plus slice (the
only step that issues upstream WMS GETs), and every request that completed
without fetching did observe the composite cache for its block, at the
pre-lock fast path check or at the re-check inside the critical section, and
returned the cached tile without issuing upstream requests. -/
theorem c1_amended (blocks : List Nat) (s : CoalState)
    (h : CoalReachable blocks s) :
    (∀ (i j b : Nat), blocks[i]? = some b → blocks[j]? = some b →
      s.pcs[i]? = some ReqPc.doneFetched → s.pcs[j]? = some ReqPc.doneFetched → i = j) ∧
    (∀ (i b : Nat), blocks[i]? = some b →
      s.pcs[i]? = some ReqPc.doneFastHit ∨ s.pcs[i]? = some ReqPc.doneCritHit →
      s.cache b = true) := by
  have hmain : (∀ (i b : Nat), blocks[i]? = some b →
      s.pcs[i]? = some ReqPc.doneFetched → s.cache b = true) ∧
    (∀ (i b : Nat), blocks[i]? = some b →
      s.pcs[i]? = some ReqPc.doneFastHit ∨ s.pcs[i]? = some ReqPc.doneCritHit →
      s.cache b = true) ∧
    (∀ (i j b : Nat), blocks[i]? = some b → blocks[j]? = some b →
      s.pcs[i]? = some ReqPc.doneFetched → s.pcs[j]? = some ReqPc.doneFetched → i = j) := by
    induction h with
    | init =>
      refine ⟨fun i b hb hp => ?_, fun i b hb hp => ?_,
        fun i j b hbi hbj hpi hpj => ?_⟩
      · cases coalInit_pcs_start blocks i _ hp
      · rcases hp with hp | hp <;> cases coalInit_pcs_start blocks i _ hp
      · cases coalInit_pcs_start blocks i _ hpi
    | step hs hstep ih =>
      exact coalstep_preserves blocks _ _ hstep ih.1 ih.2.1 ih.2.2
  exact ⟨hmain.2.2, hmain.2.1⟩

/-- Helper: the four step trace in which request 0 misses the fast path,
acquires the block lock, fetches and caches the block, and then request 1
hits the fast path cache check before any locking. -/
theorem c1_trace_reach : CoalReachable [0, 0] c1state4 := by
  have h0 : CoalReachable [0, 0] (coalInit [0, 0]) := CoalReachable.init
  have h1 : CoalReachable [0, 0] c1state1 :=
    h0.step (CoalStep.fastMiss (coalInit [0, 0]) 0 0 rfl rfl rfl)
  have h2 : CoalReachable [0, 0] c1state2 :=
    h1.step (CoalStep.acquire c1state1 0 0 rfl rfl rfl)
  have h3 : CoalReachable [0, 0] c1state3 :=
    h2.step (CoalStep.fetchBlock c1state2 0 0 rfl rfl rfl)
  exact h3.step (CoalStep.fastHit c1state3 1 0 rfl rfl (by
    show Function.update c1state2.cache 0 true 0 = true
    rw [Function.update_same]))

/-- C1 counterexample: two concurrent requests for tiles of the same block in
which request 0 performs the block fetch, and request 1, the only other
request, completes by observing the composite cache at the fast path check
before any locking, not inside the critical section, so the claim that every
other request observes the composite cache inside the critical section fails
on this reachable state. -/
theorem c1_counterexample :
    CoalReachable [0, 0] c1state4 ∧
    c1state4.pcs[1]? = some ReqPc.doneFastHit ∧
    ¬ c1state4.pcs[1]? = some ReqPc.doneCritHit :=
  ⟨c1_trace_reach, by decide, by decide⟩

/-- C1 amended witness: the amended coalescing theorem applied to the concrete
reachable state of the counterexample trace, instantiated at request 1, whose
fast path hit implies the block composite cache is populated. -/
theorem c1_amended_witness : c1state4.cache 0 = true :=
  (c1_amended [0, 0] c1state4 c1_trace_reach).2 1 0 (by decide)
    (Or.inl (by decide))

end SlippyProxy
